import Mathlib

/-!
Verification of the `dht` Go package (DHT11 / DHT22 / AM2302 sensor driver).

Shallow embedding of the pulse-to-value pipeline and the scheduling layer:
`bitsToValues`, the decode part of `readBits`, the sleep/backoff computation
of `Read`, `ReadRetry`, and the `ReadBackground` loop.

Conventions:
- Go `float64` values computed by the package (humidity, temperature) are
  modelled as rationals; every concrete value appearing in the claims is
  exactly representable in `float64` and the operations involved
  (division by 10, `*9/50 + 32`, `*9/5 + 32` on small integers) round
  exactly on those inputs.
- `time.Duration` values are modelled as integers in nanoseconds.
- Frames are `List Nat` of 40 entries in {0, 1}, the shape produced by
  `readBits` (Go `[]int` holding only 0 and 1).
-/

namespace DHT

/-- Go `TemperatureUnit` (`Celsius` / `Fahrenheit`, globals.go). -/
inductive TemperatureUnit where
  | celsius
  | fahrenheit
deriving DecidableEq, Repr

/-- The distinct error results of `bitsToValues` (dht.go), one constructor per
`fmt.Errorf` message: "bad data - humidity: %v", "bad data - temperature: %v",
"bad data - check sum fail". -/
inductive ValueError where
  | badHumidity (v : Int)
  | badTemperature (v : Int)
  | checksumFail
deriving DecidableEq, Repr

/-- MSB-first accumulation of bits into a Go `int`:
`x = x << 1; x += bits[i]` iterated over the list. -/
def accumNat (bits : List Nat) : Nat :=
  bits.foldl (fun acc b => acc * 2 + b) 0

/-- MSB-first accumulation into a Go `uint8` (wraps modulo 256):
`x = x << 1; x += uint8(bits[i])`. -/
def accum8 (bits : List Nat) : Nat :=
  bits.foldl (fun acc b => (acc * 2 + b) % 256) 0

/-- The 16-bit humidity integer of a frame: bits 0..15, MSB first. -/
def humidityIntOf (bits : List Nat) : Int :=
  (accumNat (bits.take 16) : Int)

/-- Go sign handling in `bitsToValues`:
`if (temperatureInt & 0x8000) > 0 { temperatureInt |= ^0xffff }`.
`^0xffff` is the Go `int` constant with every bit above bit 15 set; or-ing it
in turns the two's-complement `int` value `t` (here `0 ≤ t < 2^16`, sixteen
0/1 bits shifted in) into `t - 2^16`. -/
def signAdjust (t : Int) : Int :=
  if Int.land t 0x8000 > 0 then t - 65536 else t

/-- The temperature integer of a frame: bits 16..31 accumulated MSB first,
then the sign adjustment above. -/
def temperatureIntOf (bits : List Nat) : Int :=
  signAdjust (accumNat ((bits.drop 16).take 16))

/-- The checksum byte of a frame: bits 32..39 accumulated into a `uint8`. -/
def checkSumOf (bits : List Nat) : Nat :=
  accum8 ((bits.drop 32).take 8)

/-- `sumTotal` of `bitsToValues`: the four data bytes added one at a time in
`uint8` arithmetic (each addition reduced modulo 256, as in Go). -/
def sumTotalOf (bits : List Nat) : Nat :=
  (((accum8 (bits.take 8) + accum8 ((bits.drop 8).take 8)) % 256
      + accum8 ((bits.drop 16).take 8)) % 256
      + accum8 ((bits.drop 24).take 8)) % 256

/-- `bitsToValues` (dht.go): converts a 40-bit frame into
`(humidity, temperature, err)`. Mirrors the Go control flow: the non-dht11
branch first range-checks humidity (early return), then temperature (early
return), then sets `err` on checksum mismatch but still computes and returns
the values; the dht11 branch is analogous with its own ranges and scaling. -/
def bitsToValues (sensorType : String) (unit : TemperatureUnit)
    (bits : List Nat) : ℚ × ℚ × Option ValueError :=
  let humidityInt : Int := humidityIntOf bits
  let temperatureInt : Int := temperatureIntOf bits
  let checkSum : Nat := checkSumOf bits
  let sumTotal : Nat := sumTotalOf bits
  if sensorType ≠ "dht11" then
    if humidityInt < 0 ∨ 1000 < humidityInt then
      (0, 0, some (ValueError.badHumidity humidityInt))
    else if temperatureInt < -400 ∨ 800 < temperatureInt then
      (0, 0, some (ValueError.badTemperature temperatureInt))
    else
      let err : Option ValueError :=
        if checkSum ≠ sumTotal then some ValueError.checksumFail else none
      ((humidityInt : ℚ) / 10,
       if unit = TemperatureUnit.celsius then (temperatureInt : ℚ) / 10
       else (temperatureInt : ℚ) * 9 / 50 + 32,
       err)
  else
    if humidityInt < 0 ∨ 100 < humidityInt then
      (0, 0, some (ValueError.badHumidity humidityInt))
    else if temperatureInt < 0 ∨ 50 < temperatureInt then
      (0, 0, some (ValueError.badTemperature temperatureInt))
    else
      let err : Option ValueError :=
        if checkSum ≠ sumTotal then some ValueError.checksumFail else none
      ((humidityInt : ℚ),
       if unit = TemperatureUnit.celsius then (temperatureInt : ℚ)
       else (temperatureInt : ℚ) * 9 / 5 + 32,
       err)

/-- The error component of a `bitsToValues` result. -/
def errOf (r : ℚ × ℚ × Option ValueError) : Option ValueError := r.2.2

/-- The 8 bits of a byte, MSB first, as 0/1 naturals (test-frame helper). -/
def bitsOfByte (b : Nat) : List Nat :=
  [b / 128 % 2, b / 64 % 2, b / 32 % 2, b / 16 % 2,
   b / 8 % 2, b / 4 % 2, b / 2 % 2, b % 2]

/-- Builds a 40-bit frame from a 16-bit humidity field, a 16-bit temperature
field and a checksum byte (test-frame helper). -/
def frameOf (h t c : Nat) : List Nat :=
  bitsOfByte (h / 256) ++ bitsOfByte (h % 256) ++
  bitsOfByte (t / 256) ++ bitsOfByte (t % 256) ++ bitsOfByte c

end DHT

namespace DHT

/-- Claim C1: the spec says the temperature field is sign-magnitude, so that a
Generic-variant frame with temperature field `0x8032` (and in-range humidity
and correct checksum) converts to -5.0 °C. The code instead sign-extends the
16-bit field as two's complement (`temperatureInt |= ^0xffff`): `0x8032`
becomes -32718, which fails the range check and yields the temperature range
error with zero values; `0x0032` does convert to +5.0 °C; and a
two's-complement field `0xFE70` (not a sign-magnitude one) converts
to -40.0 °C. This theorem evaluates the code at those inputs, exhibiting the
divergence from the claim. -/
theorem bitsToValues_sign_bug :
    bitsToValues "" TemperatureUnit.celsius (frameOf 500 0x8032 167) =
      (0, 0, some (ValueError.badTemperature (-32718))) ∧
    bitsToValues "" TemperatureUnit.celsius (frameOf 500 0x0032 39) =
      (50, 5, none) ∧
    bitsToValues "" TemperatureUnit.celsius (frameOf 500 0xFE70 99) =
      (50, -40, none) := by
  have h1 : Int.land 32818 32768 = 32768 := by decide
  have h2 : Int.land 50 32768 = 0 := by decide
  have h3 : Int.land 65136 32768 = 32768 := by decide
  refine ⟨?_, ?_, ?_⟩ <;>
    norm_num [bitsToValues, humidityIntOf, temperatureIntOf, signAdjust,
      checkSumOf, sumTotalOf, accumNat, accum8, frameOf, bitsOfByte,
      List.foldl, List.take, List.drop, h1, h2, h3] <;> decide

/-- Claim C2, counterexample: on the frame with humidity field 1001 (out of
range), temperature field 50 and checksum byte 0 (wrong: the true byte sum
is 30), both the checksum check and a range check fail, yet the code reports
only the humidity range fault — the range checks return early and suppress
the checksum fault, contradicting the claim that at least the checksum fault
is reported. -/
theorem bitsToValues_range_and_checksum_counterexample :
    checkSumOf (frameOf 1001 50 0) ≠ sumTotalOf (frameOf 1001 50 0) ∧
    bitsToValues "" TemperatureUnit.celsius (frameOf 1001 50 0) =
      (0, 0, some (ValueError.badHumidity 1001)) := by
  constructor
  · decide
  · have h2 : Int.land 50 32768 = 0 := by decide
    norm_num [bitsToValues, humidityIntOf, temperatureIntOf, signAdjust,
      checkSumOf, sumTotalOf, accumNat, accum8, frameOf, bitsOfByte,
      List.foldl, List.take, List.drop, h2]

/-- Claim C2, amended: for both sensor variants, when a range check fails
(non-dht11: humidity integer outside [0, 1000] or temperature integer
outside [-400, 800]; dht11: humidity outside [0, 100] or temperature
outside [0, 50]) the converter reports that range fault and never the
checksum fault — range validation runs first and returns immediately, so a
range fault suppresses the checksum fault; the checksum is only consulted
when both ranges pass. The hypothesis states the out-of-range condition of
the branch the code takes for the given `sensorType`. -/
theorem bitsToValues_range_fault_first (sensorType : String)
    (u : TemperatureUnit) (bits : List Nat)
    (hrange : if sensorType ≠ "dht11" then
        1000 < humidityIntOf bits ∨ temperatureIntOf bits < -400 ∨
          800 < temperatureIntOf bits
      else
        100 < humidityIntOf bits ∨ temperatureIntOf bits < 0 ∨
          50 < temperatureIntOf bits) :
    (errOf (bitsToValues sensorType u bits) =
        some (ValueError.badHumidity (humidityIntOf bits)) ∨
      errOf (bitsToValues sensorType u bits) =
        some (ValueError.badTemperature (temperatureIntOf bits))) ∧
    errOf (bitsToValues sensorType u bits) ≠ some ValueError.checksumFail := by
  simp only [bitsToValues, errOf]
  by_cases hs : sensorType ≠ "dht11"
  · rw [if_pos hs] at hrange ⊢
    by_cases h1 : humidityIntOf bits < 0 ∨ 1000 < humidityIntOf bits
    · rw [if_pos h1]
      exact ⟨Or.inl rfl, by simp⟩
    · rw [if_neg h1]
      have h2 : temperatureIntOf bits < -400 ∨ 800 < temperatureIntOf bits := by
        rcases hrange with h | h | h
        · exact absurd (Or.inr h) h1
        · exact Or.inl h
        · exact Or.inr h
      rw [if_pos h2]
      exact ⟨Or.inr rfl, by simp⟩
  · rw [if_neg hs] at hrange ⊢
    by_cases h1 : humidityIntOf bits < 0 ∨ 100 < humidityIntOf bits
    · rw [if_pos h1]
      exact ⟨Or.inl rfl, by simp⟩
    · rw [if_neg h1]
      have h2 : temperatureIntOf bits < 0 ∨ 50 < temperatureIntOf bits := by
        rcases hrange with h | h | h
        · exact absurd (Or.inr h) h1
        · exact Or.inl h
        · exact Or.inr h
      rw [if_pos h2]
      exact ⟨Or.inr rfl, by simp⟩

/-- Witness for `bitsToValues_range_fault_first` on both variants: a
Generic frame with humidity field 1001 and a dht11 frame with humidity
field 101, each with a wrong checksum byte. -/
theorem bitsToValues_range_fault_first_witness :
    errOf (bitsToValues "" TemperatureUnit.celsius (frameOf 1001 50 0)) ≠
      some ValueError.checksumFail ∧
    errOf (bitsToValues "dht11" TemperatureUnit.celsius (frameOf 101 50 0)) ≠
      some ValueError.checksumFail :=
  ⟨(bitsToValues_range_fault_first "" TemperatureUnit.celsius
      (frameOf 1001 50 0)
      (by rw [if_pos (by decide : ("" : String) ≠ "dht11")]
          exact Or.inl (by decide))).2,
   (bitsToValues_range_fault_first "dht11" TemperatureUnit.celsius
      (frameOf 101 50 0)
      (by rw [if_neg (by decide : ¬ ("dht11" : String) ≠ "dht11")]
          exact Or.inl (by decide))).2⟩

end DHT

namespace DHT

deriving instance DecidableEq for Except

/-- A GPIO level (`gpio.Level`). -/
inductive Level where
  | high
  | low
deriving DecidableEq, Repr

/-- The distinct decode-stage errors of `readBits` (dhtNotWindows.go), one
constructor per `fmt.Errorf` message ("missing some readings - ..."). -/
inductive DecodeError where
  | missingLowLevel
  | levelNotHigh
  | highTooLong (d : Nat)
  | levelNotLow
  | lowTooLong (d : Nat)
  | lowTooShort (d : Nat)
deriving DecidableEq, Repr

/-- The backward scan of `readBits` for the last Low pulse, starting at
index `i` (the code starts at `len(levels) - 1 = 83`). At each index the
code first tests `levels[i] == gpio.Low` (stop with `endNumber = i`), and
only if that fails tests `i < 80` (fail with the missing-low-level error);
otherwise it moves to `i - 1`. Durations are nanoseconds. -/
def findEndFrom (levels : List Level) : Nat → Option Nat
  | 0 => if levels.getD 0 Level.high = Level.low then some 0 else none
  | i + 1 =>
    if levels.getD (i + 1) Level.high = Level.low then some (i + 1)
    else if i + 1 < 80 then none
    else findEndFrom levels i

/-- Per-pair High-pulse rule of `readBits`: the level must be High ("level
not high"), the duration must not exceed 90 µs ("high level duration too
long"), and the bit is 1 exactly when the duration exceeds 30 µs. -/
def classifyHigh (level : Level) (duration : Nat) : Except DecodeError Nat :=
  if level ≠ Level.high then Except.error DecodeError.levelNotHigh
  else if duration > 90 * 1000 then
    Except.error (DecodeError.highTooLong duration)
  else Except.ok (if duration > 30 * 1000 then 1 else 0)

/-- Per-pair Low-pulse rule of `readBits`: the level must be Low ("level not
low"), the duration must not exceed 70 µs ("low level duration too long")
and must be at least 35 µs ("low level duration too short"). -/
def classifyLow (level : Level) (duration : Nat) : Except DecodeError Unit :=
  if level ≠ Level.low then Except.error DecodeError.levelNotLow
  else if duration > 70 * 1000 then
    Except.error (DecodeError.lowTooLong duration)
  else if duration < 35 * 1000 then
    Except.error (DecodeError.lowTooShort duration)
  else Except.ok ()

/-- The High-pulse loop of `readBits`: `k` pairs at indices
`i, i+2, i+4, ...`, producing the bit list. -/
def checkHighs (levels : List Level) (durations : List Nat) :
    Nat → Nat → Except DecodeError (List Nat)
  | _, 0 => Except.ok []
  | i, k + 1 =>
    match classifyHigh (levels.getD i Level.low) (durations.getD i 0) with
    | Except.error e => Except.error e
    | Except.ok b =>
      match checkHighs levels durations (i + 2) k with
      | Except.error e => Except.error e
      | Except.ok bs => Except.ok (b :: bs)

/-- The Low-pulse loop of `readBits`: `k` pulses at indices
`i, i+2, i+4, ...`. -/
def checkLows (levels : List Level) (durations : List Nat) :
    Nat → Nat → Except DecodeError Unit
  | _, 0 => Except.ok ()
  | i, k + 1 =>
    match classifyLow (levels.getD i Level.high) (durations.getD i 0) with
    | Except.error e => Except.error e
    | Except.ok _ => checkLows levels durations (i + 2) k

/-- The decode stage of `readBits` (dhtNotWindows.go): locate the last Low
pulse scanning backward from index 83, set `startNumber = endNumber - 79`,
then run the 40-pair High loop (`i` from `startNumber` while
`i < endNumber`, step 2) and the 40-pulse Low loop (`i` from
`startNumber + 1` while `i < endNumber + 1`, step 2); both loops make
exactly 40 iterations since `endNumber - startNumber = 79`. -/
def readBitsDecode (levels : List Level) (durations : List Nat) :
    Except DecodeError (List Nat) :=
  match findEndFrom levels 83 with
  | none => Except.error DecodeError.missingLowLevel
  | some endNumber =>
    let startNumber := endNumber - 79
    match checkHighs levels durations startNumber 40 with
    | Except.error e => Except.error e
    | Except.ok bits =>
      match checkLows levels durations (startNumber + 1) 40 with
      | Except.error e => Except.error e
      | Except.ok _ => Except.ok bits

/-- An 84-pulse test sequence: 4 handshake pulses then 40 High/Low data
pairs (test helper). -/
def mkLevels : List Level :=
  List.replicate 4 Level.high ++
    (List.replicate 40 [Level.high, Level.low]).flatten

/-- Durations for `mkLevels`: every data High lasts `dh` ns and every data
Low lasts `dl` ns (test helper). -/
def mkDurations (dh dl : Nat) : List Nat :=
  List.replicate 4 50000 ++ (List.replicate 40 [dh, dl]).flatten

/-- Claim C5: the boundary timing rules of the frame decoder. A High pulse
of exactly 30 µs decodes to bit 0 and 31 µs to bit 1; 90 µs is accepted
while 91 µs fails with the high-too-long error; a Low pulse of 35 µs is
accepted while 34 µs fails low-too-short; 70 µs is accepted while 71 µs
fails low-too-long — stated for the decoder's per-pulse rules and checked
end-to-end on full 84-pulse sequences. -/
theorem decode_boundary_durations :
    classifyHigh Level.high 30000 = Except.ok 0 ∧
    classifyHigh Level.high 31000 = Except.ok 1 ∧
    classifyHigh Level.high 90000 = Except.ok 1 ∧
    classifyHigh Level.high 91000 =
      Except.error (DecodeError.highTooLong 91000) ∧
    classifyLow Level.low 35000 = Except.ok () ∧
    classifyLow Level.low 34000 =
      Except.error (DecodeError.lowTooShort 34000) ∧
    classifyLow Level.low 70000 = Except.ok () ∧
    classifyLow Level.low 71000 =
      Except.error (DecodeError.lowTooLong 71000) ∧
    readBitsDecode mkLevels (mkDurations 30000 35000) =
      Except.ok (List.replicate 40 0) ∧
    readBitsDecode mkLevels (mkDurations 31000 70000) =
      Except.ok (List.replicate 40 1) ∧
    readBitsDecode mkLevels (mkDurations 90000 50000) =
      Except.ok (List.replicate 40 1) ∧
    readBitsDecode mkLevels (mkDurations 91000 50000) =
      Except.error (DecodeError.highTooLong 91000) ∧
    readBitsDecode mkLevels (mkDurations 50000 34000) =
      Except.error (DecodeError.lowTooShort 34000) ∧
    readBitsDecode mkLevels (mkDurations 50000 71000) =
      Except.error (DecodeError.lowTooLong 71000) := by decide

/-- An 84-pulse sequence whose last Low pulse sits at index 79: 40 High/Low
data pairs on indices 0..79 followed by 4 trailing High pulses. -/
def levelsLastLow79 : List Level :=
  (List.replicate 40 [Level.high, Level.low]).flatten ++
    List.replicate 4 Level.high

/-- Claim C6, counterexample: on `levelsLastLow79` no Low pulse exists at
any index ≥ 80, yet the decoder does not fail with the missing-low-level
error — it accepts the window ending at index 79 and decodes successfully.
The claim's "fails exactly when no Low is found at index ≥ 80" is false;
the scan accepts a last Low at index 79. -/
theorem decode_lastLow79_counterexample :
    levelsLastLow79.getD 80 Level.high = Level.high ∧
    levelsLastLow79.getD 81 Level.high = Level.high ∧
    levelsLastLow79.getD 82 Level.high = Level.high ∧
    levelsLastLow79.getD 83 Level.high = Level.high ∧
    levelsLastLow79.length = 84 ∧
    readBitsDecode levelsLastLow79 (List.replicate 84 50000) =
      Except.ok (List.replicate 40 1) := by decide

end DHT

namespace DHT

/-- Unfolding equation for the backward scan at a successor index. -/
theorem findEndFrom_succ (lv : List Level) (i : Nat) :
    findEndFrom lv (i + 1) =
      if lv.getD (i + 1) Level.high = Level.low then some (i + 1)
      else if i + 1 < 80 then none
      else findEndFrom lv i := rfl

/-- One unfolding step of the backward scan at index 83. -/
theorem findEndFrom_eq_83 (lv : List Level) :
    findEndFrom lv 83 =
      if lv.getD 83 Level.high = Level.low then some 83
      else findEndFrom lv 82 := rfl

/-- One unfolding step of the backward scan at index 82. -/
theorem findEndFrom_eq_82 (lv : List Level) :
    findEndFrom lv 82 =
      if lv.getD 82 Level.high = Level.low then some 82
      else findEndFrom lv 81 := rfl

/-- One unfolding step of the backward scan at index 81. -/
theorem findEndFrom_eq_81 (lv : List Level) :
    findEndFrom lv 81 =
      if lv.getD 81 Level.high = Level.low then some 81
      else findEndFrom lv 80 := rfl

/-- One unfolding step of the backward scan at index 80. -/
theorem findEndFrom_eq_80 (lv : List Level) :
    findEndFrom lv 80 =
      if lv.getD 80 Level.high = Level.low then some 80
      else findEndFrom lv 79 := rfl

/-- The backward scan at index 79 either stops there or fails: the code
checks `levels[79] == Low` before the `79 < 80` guard. -/
theorem findEndFrom_eq_79 (lv : List Level) :
    findEndFrom lv 79 =
      if lv.getD 79 Level.high = Level.low then some 79 else none := rfl

/-- The backward scan from index 83 fails exactly when none of the indices
79..83 holds a Low pulse. -/
theorem findEndFrom_83_none_iff (lv : List Level) :
    findEndFrom lv 83 = none ↔
      (lv.getD 79 Level.high ≠ Level.low ∧ lv.getD 80 Level.high ≠ Level.low ∧
       lv.getD 81 Level.high ≠ Level.low ∧ lv.getD 82 Level.high ≠ Level.low ∧
       lv.getD 83 Level.high ≠ Level.low) := by
  rw [findEndFrom_eq_83, findEndFrom_eq_82, findEndFrom_eq_81,
    findEndFrom_eq_80, findEndFrom_eq_79]
  split_ifs <;> simp_all

/-- When the backward scan from index 83 finds a Low pulse, its index is at
least 79 and is the last Low index among 79..83. -/
theorem findEndFrom_83_some (lv : List Level) (e : Nat)
    (h : findEndFrom lv 83 = some e) :
    lv.getD e Level.high = Level.low ∧ 79 ≤ e ∧ e ≤ 83 ∧
      ∀ j, e < j → j ≤ 83 → lv.getD j Level.high ≠ Level.low := by
  rw [findEndFrom_eq_83, findEndFrom_eq_82, findEndFrom_eq_81,
    findEndFrom_eq_80, findEndFrom_eq_79] at h
  split_ifs at h with h83 h82 h81 h80 h79 <;>
    first
    | (cases h
       refine ⟨by assumption, by omega, by omega, ?_⟩
       intro j hj1 hj2
       have hj : j = 80 ∨ j = 81 ∨ j = 82 ∨ j = 83 ∨ j = 79 := by omega
       rcases hj with rfl | rfl | rfl | rfl | rfl <;> first | assumption | omega)
    | cases h

/-- The per-pulse High rule never reports the missing-low-level error. -/
theorem classifyHigh_error_shape (l : Level) (d : Nat) (e : DecodeError)
    (h : classifyHigh l d = Except.error e) :
    e ≠ DecodeError.missingLowLevel := by
  unfold classifyHigh at h
  split_ifs at h <;> cases h <;> simp

/-- The per-pulse Low rule never reports the missing-low-level error. -/
theorem classifyLow_error_shape (l : Level) (d : Nat) (e : DecodeError)
    (h : classifyLow l d = Except.error e) :
    e ≠ DecodeError.missingLowLevel := by
  unfold classifyLow at h
  split_ifs at h <;> cases h <;> simp

/-- The High-pulse loop never reports the missing-low-level error. -/
theorem checkHighs_error_shape (lv : List Level) (du : List Nat) :
    ∀ k i e, checkHighs lv du i k = Except.error e →
      e ≠ DecodeError.missingLowLevel := by
  intro k
  induction k with
  | zero => intro i e h; cases h
  | succ k ih =>
      intro i e h
      unfold checkHighs at h
      cases hc : classifyHigh (lv.getD i Level.low) (du.getD i 0) with
      | error e1 =>
          rw [hc] at h
          cases h
          exact classifyHigh_error_shape _ _ _ hc
      | ok b =>
          rw [hc] at h
          cases hr : checkHighs lv du (i + 2) k with
          | error e2 =>
              rw [hr] at h
              cases h
              exact ih _ _ hr
          | ok bs => rw [hr] at h; cases h

/-- The Low-pulse loop never reports the missing-low-level error. -/
theorem checkLows_error_shape (lv : List Level) (du : List Nat) :
    ∀ k i e, checkLows lv du i k = Except.error e →
      e ≠ DecodeError.missingLowLevel := by
  intro k
  induction k with
  | zero => intro i e h; cases h
  | succ k ih =>
      intro i e h
      unfold checkLows at h
      cases hc : classifyLow (lv.getD i Level.high) (du.getD i 0) with
      | error e1 =>
          rw [hc] at h
          cases h
          exact classifyLow_error_shape _ _ _ hc
      | ok u => rw [hc] at h; exact ih _ _ h

/-- Claim C6, amended: for every recorded 84-pulse sequence the decoder
fails with the missing-low-level error exactly when no Low pulse is found at
index ≥ 79 (not ≥ 80 as claimed: the scan tests `levels[i] == Low` before
the `i < 80` guard, so a last Low at index 79 is accepted); otherwise the 80
data pulses are taken from the window ending at the last Low index, which
lies in 79..83 and is the last Low among those indices. -/
theorem readBitsDecode_missingLow_iff (lv : List Level) (du : List Nat)
    (hlen : lv.length = 84) :
    (readBitsDecode lv du = Except.error DecodeError.missingLowLevel ↔
      (lv.getD 79 Level.high ≠ Level.low ∧ lv.getD 80 Level.high ≠ Level.low ∧
       lv.getD 81 Level.high ≠ Level.low ∧ lv.getD 82 Level.high ≠ Level.low ∧
       lv.getD 83 Level.high ≠ Level.low)) ∧
    ∀ e, findEndFrom lv 83 = some e →
      lv.getD e Level.high = Level.low ∧ 79 ≤ e ∧ e ≤ 83 ∧
        ∀ j, e < j → j ≤ 83 → lv.getD j Level.high ≠ Level.low := by
  refine ⟨?_, fun e he => findEndFrom_83_some lv e he⟩
  cases hf : findEndFrom lv 83 with
  | none =>
      simp only [readBitsDecode, hf]
      exact ⟨fun _ => (findEndFrom_83_none_iff lv).mp hf, fun _ => by trivial⟩
  | some en =>
      have hspec := findEndFrom_83_some lv en hf
      have hne : readBitsDecode lv du ≠
          Except.error DecodeError.missingLowLevel := by
        simp only [readBitsDecode, hf]
        cases hh : checkHighs lv du (en - 79) 40 with
        | error e1 =>
            have := checkHighs_error_shape lv du 40 (en - 79) e1 hh
            simp [this]
        | ok bits =>
            cases hl2 : checkLows lv du (en - 79 + 1) 40 with
            | error e2 =>
                have := checkLows_error_shape lv du 40 (en - 79 + 1) e2 hl2
                simp [this]
            | ok u => simp
      constructor
      · intro h; exact absurd h hne
      · intro hconj
        exfalso
        obtain ⟨hlow, h79, h83, _⟩ := hspec
        obtain ⟨c79, c80, c81, c82, c83⟩ := hconj
        have : en = 79 ∨ en = 80 ∨ en = 81 ∨ en = 82 ∨ en = 83 := by omega
        rcases this with rfl | rfl | rfl | rfl | rfl <;> simp_all

/-- Witness for `readBitsDecode_missingLow_iff`: an all-High 84-pulse record
has no Low pulse at all, and the decoder fails with the missing-low-level
error on it. -/
theorem readBitsDecode_missingLow_iff_witness :
    readBitsDecode (List.replicate 84 Level.high) (List.replicate 84 50000) =
      Except.error DecodeError.missingLowLevel :=
  ((readBitsDecode_missingLow_iff (List.replicate 84 Level.high)
    (List.replicate 84 50000) (by decide)).1).mpr (by decide)

end DHT

namespace DHT

/-- Read-attempt faults surfaced by `Read` (dht.go): a pin-operation error
inside `readBits`, a decode error, or a value error from `bitsToValues`. -/
inductive ReadFault where
  | pinFault
  | decodeFault (e : DecodeError)
  | valueFault (e : ValueError)
deriving DecidableEq, Repr

/-- The `DHT` struct fields mutated or read by the scheduling layer
(globals.go): `numErrors` and `lastRead` (a timestamp in nanoseconds),
plus the configuration fields. -/
structure DHTState where
  sensorType : String
  temperatureUnit : TemperatureUnit
  numErrors : Int
  lastRead : Int
deriving DecidableEq, Repr

/-- The sleep-duration computation at the top of `Read` (dht.go), in
nanoseconds: `2s + numErrors * 500ms` while `numErrors < 57`, else `30s`. -/
def sleepTimeFor (numErrors : Int) : Int :=
  if numErrors < 57 then 2 * 1000000000 + numErrors * (500 * 1000000)
  else 30 * 1000000000

/-- Go `time.Sleep` semantics: a negative or zero duration returns
immediately, so the time actually slept is the duration clamped at zero. -/
def sleepClamp (d : Int) : Int := max d 0

/-- The time `Read` actually sleeps: the code computes
`sleepTime -= time.Since(dht.lastRead)` and calls `time.Sleep(sleepTime)`,
where `elapsed` is the time since `lastRead`. -/
def readSleep (numErrors elapsed : Int) : Int :=
  sleepClamp (sleepTimeFor numErrors - elapsed)

/-- `Read` (dht.go) as a state transformer: after the sleep, `readBits`
runs (setting `lastRead` to the current time `now` at the start of the
capture attempt) and on success `bitsToValues` converts the bits. The
oracle `bitsRes` stands for the capture+decode outcome. No path of the Go
method writes `numErrors`. -/
def readStep (st : DHTState) (now : Int)
    (bitsRes : Except ReadFault (List Nat)) :
    (ℚ × ℚ × Option ReadFault) × DHTState :=
  let st2 : DHTState := { st with lastRead := now }
  match bitsRes with
  | Except.error e => ((0, 0, some e), st2)
  | Except.ok bits =>
    let r := bitsToValues st.sensorType st.temperatureUnit bits
    ((r.1, r.2.1, r.2.2.map ReadFault.valueFault), st2)

/-- Claim C3: the spec says `Read` resets `numErrors` to 0 on success and
increments it on failure. In fact no statement in the package ever writes
`numErrors`: `Read` leaves it unchanged on every path (success, capture
failure, or conversion failure), so it stays at its initial value 0
forever and the documented error backoff never engages. -/
theorem read_numErrors_unchanged (st : DHTState) (now : Int)
    (bitsRes : Except ReadFault (List Nat)) :
    ((readStep st now bitsRes).2).numErrors = st.numErrors := by
  cases bitsRes <;> rfl

/-- Claim C4: the minimum inter-read interval computed by `Read` equals
`min(2s + numErrors * 0.5s, 30s)` for every non-negative failure count;
counts 0, 1, 2 give 2.0 s, 2.5 s, 3.0 s; every count ≥ 56 gives exactly
30 s; the interval never exceeds 30 s; and the actual sleep is
`max(0, interval - elapsed)`. -/
theorem sleepTime_backoff_spec (n : Int) (hn : 0 ≤ n) :
    sleepTimeFor n =
      min (2 * 1000000000 + n * (500 * 1000000)) (30 * 1000000000) ∧
    sleepTimeFor 0 = 2 * 1000000000 ∧
    sleepTimeFor 1 = 2500 * 1000000 ∧
    sleepTimeFor 2 = 3 * 1000000000 ∧
    (56 ≤ n → sleepTimeFor n = 30 * 1000000000) ∧
    sleepTimeFor n ≤ 30 * 1000000000 ∧
    ∀ e : Int, readSleep n e =
      max (min (2 * 1000000000 + n * (500 * 1000000)) (30 * 1000000000) - e)
        0 := by
  have key : sleepTimeFor n =
      min (2 * 1000000000 + n * (500 * 1000000)) (30 * 1000000000) := by
    unfold sleepTimeFor
    rcases lt_or_le n 57 with h | h
    · rw [if_pos h, min_eq_left (by omega)]
    · rw [if_neg (by omega), min_eq_right (by omega)]
  refine ⟨key, by norm_num [sleepTimeFor], by norm_num [sleepTimeFor],
    by norm_num [sleepTimeFor], ?_, ?_, ?_⟩
  · intro h56
    unfold sleepTimeFor
    rcases lt_or_le n 57 with h | h
    · rw [if_pos h]
      have : n = 56 := by omega
      subst this
      norm_num
    · rw [if_neg (by omega)]
  · rw [key]
    exact min_le_right _ _
  · intro e
    rw [readSleep, sleepClamp, key]

/-- Witness for `sleepTime_backoff_spec`: counts 2 and 56 give exactly
3.0 s and 30 s. -/
theorem sleepTime_backoff_spec_witness :
    sleepTimeFor 2 = 3 * 1000000000 ∧ sleepTimeFor 56 = 30 * 1000000000 :=
  ⟨(sleepTime_backoff_spec 2 (by norm_num)).2.2.2.1,
   (sleepTime_backoff_spec 56 (by norm_num)).2.2.2.2.1 (by norm_num)⟩

/-- The externally visible actions of one `readBits` capture attempt, in
program order. -/
inductive RBEvent where
  | setLastRead
  | pinOutLow
  | pinIn
  | capture
  | pinOutHigh
deriving DecidableEq, Repr

/-- `readBits` (dhtNotWindows.go) as an ordered trace of its actions plus
its result, driven by oracles for the three pin-operation outcomes and the
captured pulses. Statement order of the source: `dht.lastRead = time.Now()`
first, then `pin.Out(Low)` (on error: restore `pin.Out(High)` and fail),
then `pin.In(PullUp)` (same restore on error), the 84-slot capture, the
restore `pin.Out(High)` (fail if it errors), and the pure decode stage. -/
def readBitsProc (outLowOk inOk outHighOk : Bool)
    (levels : List Level) (durations : List Nat) :
    List RBEvent × Except ReadFault (List Nat) :=
  if ¬ outLowOk then
    ([RBEvent.setLastRead, RBEvent.pinOutLow, RBEvent.pinOutHigh],
     Except.error ReadFault.pinFault)
  else if ¬ inOk then
    ([RBEvent.setLastRead, RBEvent.pinOutLow, RBEvent.pinIn,
      RBEvent.pinOutHigh],
     Except.error ReadFault.pinFault)
  else if ¬ outHighOk then
    ([RBEvent.setLastRead, RBEvent.pinOutLow, RBEvent.pinIn, RBEvent.capture,
      RBEvent.pinOutHigh],
     Except.error ReadFault.pinFault)
  else
    ([RBEvent.setLastRead, RBEvent.pinOutLow, RBEvent.pinIn, RBEvent.capture,
      RBEvent.pinOutHigh],
     (readBitsDecode levels durations).mapError ReadFault.decodeFault)

/-- The Windows stub `readBits` (dhtWindows.go): sets `lastRead` and
returns 40 zero bits. -/
def readBitsWindowsProc : List RBEvent × Except ReadFault (List Nat) :=
  ([RBEvent.setLastRead], Except.ok (List.replicate 40 0))

/-- Claim C8: on every path of `readBits` — all pin-operation outcomes and
all capture contents, hence both success and every failure — the trace
starts with the `lastRead := now` update, before any pin operation, and
contains exactly one such update; the Windows stub behaves the same. So the
last-read timestamp is set at the start of every capture attempt. -/
theorem readBits_lastRead_first (a b c : Bool) (lv : List Level)
    (du : List Nat) :
    (readBitsProc a b c lv du).1.head? = some RBEvent.setLastRead ∧
    (readBitsProc a b c lv du).1.count RBEvent.setLastRead = 1 ∧
    readBitsWindowsProc.1.head? = some RBEvent.setLastRead ∧
    readBitsWindowsProc.1.count RBEvent.setLastRead = 1 := by
  cases a <;> cases b <;> cases c <;> exact ⟨rfl, rfl, rfl, rfl⟩

end DHT

namespace DHT

/-- One `Read` outcome, the Go triple `(humidity, temperature, err)`. -/
abbrev ReadResult := ℚ × ℚ × Option ReadFault

/-- The loop of `ReadRetry` (dht.go): `attempts i` is the result of the
`i`-th `Read` call, `k` the remaining iteration budget, `last` the named
return values so far (Go zero values before the first call; on loop exit
they hold the last call's results). Besides the final
`(humidity, temperature, err)` the model counts the `Read` calls made. -/
def readRetryAux (attempts : Nat → ReadResult) :
    Nat → Nat → ReadResult → ReadResult × Nat
  | _, 0, last => (last, 0)
  | i, k + 1, _ =>
    let r := attempts i
    if r.2.2 = none then (r, 1)
    else
      let p := readRetryAux attempts (i + 1) k r
      (p.1, p.2 + 1)

/-- `ReadRetry` (dht.go): `maxRetries` is a Go `int`, so the loop
`for i := 0; i < maxRetries; i++` runs `max(maxRetries, 0)` times starting
from the zero-valued named returns. -/
def readRetryGo (attempts : Nat → ReadResult) (maxRetries : Int) :
    ReadResult × Nat :=
  readRetryAux attempts 0 maxRetries.toNat (0, 0, none)

/-- Unfolding equation of the retry loop with no budget left. -/
theorem readRetryAux_zero (attempts : Nat → ReadResult) (i : Nat)
    (last : ReadResult) :
    readRetryAux attempts i 0 last = (last, 0) := rfl

/-- Unfolding equation of one retry-loop iteration. -/
theorem readRetryAux_succ (attempts : Nat → ReadResult) (i k : Nat)
    (last : ReadResult) :
    readRetryAux attempts i (k + 1) last =
      if (attempts i).2.2 = none then (attempts i, 1)
      else ((readRetryAux attempts (i + 1) k (attempts i)).1,
            (readRetryAux attempts (i + 1) k (attempts i)).2 + 1) := rfl

/-- Behaviour of the retry loop started at index `i` with budget `k ≥ 1`:
it makes between 1 and `k` calls; if it ends successfully it returns the
result of its last call and every earlier call failed; if all `k` calls
fail it makes exactly `k` calls and returns the last call's result. -/
theorem readRetryAux_spec (attempts : Nat → ReadResult) :
    ∀ (k i : Nat) (last : ReadResult), 1 ≤ k →
      1 ≤ (readRetryAux attempts i k last).2 ∧
      (readRetryAux attempts i k last).2 ≤ k ∧
      ((readRetryAux attempts i k last).1.2.2 = none →
        (readRetryAux attempts i k last).1 =
          attempts (i + (readRetryAux attempts i k last).2 - 1) ∧
        ∀ j, j < (readRetryAux attempts i k last).2 - 1 →
          (attempts (i + j)).2.2 ≠ none) ∧
      ((∀ j, j < k → (attempts (i + j)).2.2 ≠ none) →
        (readRetryAux attempts i k last).1 = attempts (i + k - 1) ∧
        (readRetryAux attempts i k last).2 = k) := by
  intro k
  induction k with
  | zero => intro i last h; exact absurd h (by omega)
  | succ k ih =>
      intro i last _
      by_cases hs : (attempts i).2.2 = none
      · rw [readRetryAux_succ, if_pos hs]
        refine ⟨by omega, by omega, ?_, ?_⟩
        · intro _
          refine ⟨by rw [show i + 1 - 1 = i by omega], ?_⟩
          intro j hj
          omega
        · intro hall
          exact absurd hs (by simpa using hall 0 (by omega))
      · cases k with
        | zero =>
            rw [readRetryAux_succ, if_neg hs, readRetryAux_zero]
            refine ⟨by omega, by omega, ?_, ?_⟩
            · intro hnone
              exact absurd hnone hs
            · intro _
              rw [show i + 1 - 1 = i by omega]
              exact ⟨rfl, rfl⟩
        | succ k2 =>
            obtain ⟨ih1, ih2, ih3, ih4⟩ := ih (i + 1) (attempts i) (by omega)
            rw [readRetryAux_succ, if_neg hs]
            refine ⟨by omega, by omega, ?_, ?_⟩
            · intro hnone
              obtain ⟨e1, e2⟩ := ih3 hnone
              refine ⟨by rw [e1]; congr 1; omega, ?_⟩
              intro j hj
              rcases Nat.eq_zero_or_pos j with rfl | hpos
              · simpa using hs
              · have h2 := e2 (j - 1) (by omega)
                rwa [show i + 1 + (j - 1) = i + j by omega] at h2
            · intro hall
              have hall2 : ∀ j, j < k2 + 1 →
                  (attempts (i + 1 + j)).2.2 ≠ none := by
                intro j hj
                have h3 := hall (j + 1) (by omega)
                rwa [show i + (j + 1) = i + 1 + j by omega] at h3
              obtain ⟨f1, f2⟩ := ih4 hall2
              refine ⟨by rw [f1]; congr 1; omega, by omega⟩

/-- Claim C9: for every `maxRetries ≥ 1`, `ReadRetry` calls `Read` at least
once and at most `maxRetries` times; if the returned error is nil the
returned reading is the result of the last call made and every earlier call
failed (first success returns immediately); and if all `maxRetries` calls
fail it makes exactly `maxRetries` calls and returns the last call's
result, hence the last observed error. -/
theorem readRetry_spec (attempts : Nat → ReadResult) (m : Int) (hm : 1 ≤ m) :
    1 ≤ (readRetryGo attempts m).2 ∧
    ((readRetryGo attempts m).2 : Int) ≤ m ∧
    ((readRetryGo attempts m).1.2.2 = none →
      (readRetryGo attempts m).1 =
        attempts ((readRetryGo attempts m).2 - 1) ∧
      ∀ j, j < (readRetryGo attempts m).2 - 1 →
        (attempts j).2.2 ≠ none) ∧
    ((∀ j : Nat, (j : Int) < m → (attempts j).2.2 ≠ none) →
      (readRetryGo attempts m).1 = attempts (m.toNat - 1) ∧
      ((readRetryGo attempts m).2 : Int) = m) := by
  have hk : 1 ≤ m.toNat := by omega
  obtain ⟨h1, h2, h3, h4⟩ := readRetryAux_spec attempts m.toNat 0 (0, 0, none) hk
  simp only [readRetryGo]
  refine ⟨h1, by omega, ?_, ?_⟩
  · intro hnone
    obtain ⟨e1, e2⟩ := h3 hnone
    refine ⟨by simpa using e1, ?_⟩
    intro j hj
    simpa using e2 j hj
  · intro hall
    have hall2 : ∀ j, j < m.toNat → (attempts (0 + j)).2.2 ≠ none := by
      intro j hj
      have hji : (j : Int) < m := by omega
      simpa using hall j hji
    obtain ⟨f1, f2⟩ := h4 hall2
    exact ⟨by simpa using f1, by omega⟩

/-- A concrete `Read`-outcome sequence for witnesses: the first call fails
with a pin fault, the second succeeds. -/
def attemptsW : Nat → ReadResult := fun i =>
  if i = 1 then (50, 5, none) else (0, 0, some ReadFault.pinFault)

/-- Witness for `readRetry_spec` at `attemptsW` and `maxRetries = 3`. -/
theorem readRetry_spec_witness :
    1 ≤ (readRetryGo attemptsW 3).2 ∧
    ((readRetryGo attemptsW 3).2 : Int) ≤ 3 :=
  ⟨(readRetry_spec attemptsW 3 (by norm_num)).1,
   (readRetry_spec attemptsW 3 (by norm_num)).2.1⟩

/-- Claim C10: for every `maxRetries ≤ 0` the loop of `ReadRetry` never
runs: no `Read` call is made and the Go zero values are returned —
humidity 0, temperature 0 and a nil error, an apparent success that never
touched the sensor. -/
theorem readRetry_nonpositive (attempts : Nat → ReadResult) (m : Int)
    (hm : m ≤ 0) :
    readRetryGo attempts m = ((0, 0, none), 0) := by
  have h0 : m.toNat = 0 := Int.toNat_of_nonpos hm
  simp only [readRetryGo, h0, readRetryAux_zero]

/-- Witness for `readRetry_nonpositive` at `maxRetries = -1`. -/
theorem readRetry_nonpositive_witness :
    readRetryGo attemptsW (-1) = ((0, 0, none), 0) :=
  readRetry_nonpositive attemptsW (-1) (by norm_num)

end DHT

namespace DHT

/-- What an execution of `ReadBackground` did by the time it returned:
the values written through the humidity/temperature pointers (in order),
whether the `stopped` channel was closed, and how many `Read` calls were
made. -/
structure BGOutcome where
  published : List (ℚ × ℚ)
  stoppedClosed : Bool
  readsMade : Nat
deriving DecidableEq, Repr

/-- The loop of `ReadBackground` (dht.go) specialised to a `stop` channel
closed before the loop starts, so the stop branch of every `select` is
ready. Mirrors the Go loop body: each iteration first calls `Read`
(`reads i` is the `i`-th outcome); on success it writes the reading through
the pointers and then selects between `time.After(sleepDuration - elapsed)`
and `stop` — `timerReady i` says whether the timer is also already ready
(remaining sleep ≤ 0) and `pickStop i` resolves Go's random choice when
both are ready; on failure it runs the non-blocking select on `stop`,
which (stop being closed) always breaks. On loop exit `stopped` is closed.
`none` means the loop had not terminated within `fuel` iterations. -/
def readBackgroundAuxStopClosed (reads : Nat → ReadResult)
    (timerReady pickStop : Nat → Bool) :
    Nat → Nat → List (ℚ × ℚ) → Option BGOutcome
  | 0, _, _ => none
  | fuel + 1, i, acc =>
    match (reads i).2.2 with
    | some _ => some ⟨acc.reverse, true, i + 1⟩
    | none =>
      let acc2 := ((reads i).1, (reads i).2.1) :: acc
      if pickStop i ∨ ¬ timerReady i then some ⟨acc2.reverse, true, i + 1⟩
      else readBackgroundAuxStopClosed reads timerReady pickStop fuel (i + 1)
        acc2

/-- `ReadBackground` with the cancellation signal fired before the loop
starts. -/
def readBackgroundStopClosed (reads : Nat → ReadResult)
    (timerReady pickStop : Nat → Bool) (fuel : Nat) : Option BGOutcome :=
  readBackgroundAuxStopClosed reads timerReady pickStop fuel 0 []

/-- Claim C7, counterexample: with the cancellation signal fired before the
loop starts and a first `Read` that succeeds with reading (50 %, 5 °C), the
loop does terminate after that one capture attempt and closes `stopped`,
but it writes the reading through the caller-visible pointers before
terminating — `published` is `[(50, 5)]`, not `[]`. The claim that no
reading is ever written before terminating is false: `Read` runs before the
stop signal is consulted, and a successful result is stored first. -/
theorem readBackground_publishes_counterexample :
    readBackgroundStopClosed (fun _ => (50, 5, none)) (fun _ => false)
      (fun _ => false) 1 =
      some ⟨[(50, 5)], true, 1⟩ := rfl

/-- Claim C7, amended: with the cancellation signal fired before the loop
starts, and the stop branch taken at the first `select` (which is automatic
whenever the remaining sleep time is positive, i.e. the timer branch is not
yet ready), the loop terminates within one capture attempt — exactly one
`Read` — and closes `stopped` exactly once; but the attempt's reading, if
the attempt succeeds, is written to the caller-visible output before
termination; only a failed attempt publishes nothing. -/
theorem readBackground_stopClosed_spec (reads : Nat → ReadResult)
    (timerReady pickStop : Nat → Bool)
    (h : pickStop 0 = true ∨ timerReady 0 = false) :
    readBackgroundStopClosed reads timerReady pickStop 1 =
      some ⟨if (reads 0).2.2 = none then [((reads 0).1, (reads 0).2.1)]
              else [],
            true, 1⟩ := by
  have hcond : (pickStop 0 = true) ∨ ¬ (timerReady 0 = true) := by
    rcases h with h | h
    · exact Or.inl h
    · exact Or.inr (by simp [h])
  unfold readBackgroundStopClosed readBackgroundAuxStopClosed
  cases hr : (reads 0).2.2 with
  | none =>
      simp [hr, hcond]
      intro h1 h2
      rcases hcond with hc | hc
      · rw [h1] at hc; cases hc
      · exact absurd h2 hc
  | some e => simp [hr]

/-- Witness for `readBackground_stopClosed_spec`: a failing first read
publishes nothing, terminates after one read and closes `stopped`. -/
theorem readBackground_stopClosed_spec_witness :
    readBackgroundStopClosed (fun _ => (0, 0, some ReadFault.pinFault))
      (fun _ => false) (fun _ => false) 1 = some ⟨[], true, 1⟩ := by
  have h := readBackground_stopClosed_spec
    (fun _ => (0, 0, some ReadFault.pinFault))
    (fun _ => false) (fun _ => false) (Or.inr rfl)
  simpa using h

end DHT
